import Mathlib

/-!
Verification of the agent-kernel core of the repository
(`backend/app/services/agent_kernel.py`): path sandbox, command safety
filter, approval gate, conversation/tool loop, resume entry point and
context injector.

The Python code is shallowly embedded.  OS and network primitives
(`os.listdir`, `os.walk`, `open`, `subprocess.run`, the language-model
call, the builder-service helpers and `difflib`) are modelled as fields
of an explicit `World` record; fallible primitives return `Except`.
Machine strings are Lean `String`s; filesystem contents live in
`World.readFile`, and process spawns are recorded in `World.events`.
-/

namespace AgentKernel

/-! ## Basic Python string primitives -/

/-- A single apostrophe character, as a string. -/
def sq : String := String.singleton (Char.ofNat 39)

/-- Opening curly brace as a string. -/
def lb : String := String.singleton (Char.ofNat 123)

/-- Closing curly brace as a string. -/
def rb : String := String.singleton (Char.ofNat 125)

/-- Python substring containment on character lists: `needle in hay`. -/
def containsL (needle : List Char) : List Char → Bool
  | [] => needle.isPrefixOf ([] : List Char)
  | c :: t => needle.isPrefixOf (c :: t) || containsL needle t

/-- Python `needle in hay` for strings. -/
def containsStr (hay needle : String) : Bool :=
  containsL needle.data hay.data

/-- Python `s.startswith(p)`. -/
def pyStartswith (s p : String) : Bool :=
  p.data.isPrefixOf s.data

/-- Python `s[:n]` (character slicing). -/
def strTake (s : String) (n : Nat) : String :=
  ⟨s.data.take n⟩

/-- Split a character list at every occurrence of `c`
(Python `s.split(c)` for a one-character separator). -/
def splitCharAux (c : Char) : List Char → List Char → List (List Char)
  | [], acc => [acc.reverse]
  | x :: xs, acc =>
    if x = c then acc.reverse :: splitCharAux c xs []
    else splitCharAux c xs (x :: acc)

/-- Python `s.split(c)` for a one-character separator. -/
def strSplitChar (c : Char) (s : String) : List String :=
  (splitCharAux c s.data []).map fun l => ⟨l⟩

/-- Split a character list at every character satisfying `p`. -/
def splitPredAux (p : Char → Bool) : List Char → List Char → List (List Char)
  | [], acc => [acc.reverse]
  | x :: xs, acc =>
    if p x then acc.reverse :: splitPredAux p xs []
    else splitPredAux p xs (x :: acc)

/-- Split a string at every character satisfying `p`. -/
def strSplitPred (p : Char → Bool) (s : String) : List String :=
  (splitPredAux p s.data []).map fun l => ⟨l⟩

/-- Python `s.upper()` (ASCII). -/
def strUpper (s : String) : String :=
  ⟨s.data.map Char.toUpper⟩

/-- Python `s.lower()` (ASCII). -/
def strLower (s : String) : String :=
  ⟨s.data.map Char.toLower⟩

/-- Python `s.replace(a, b)` for one-character `a` and `b`. -/
def strReplaceChar (a b : Char) (s : String) : String :=
  ⟨s.data.map fun c => if c = a then b else c⟩

/-- Index of the first position of `hay` at which `needle` occurs, if any
(the position Python `str.replace(old, new, 1)` replaces at). -/
def firstMatchIdx (needle : List Char) : List Char → Option Nat
  | [] => if needle.isPrefixOf ([] : List Char) then some 0 else none
  | c :: t =>
    if needle.isPrefixOf (c :: t) then some 0
    else (firstMatchIdx needle t).map (· + 1)

/-- Python `s.replace(old, new, 1)` on character lists: replace the first
occurrence of `old` (an empty `old` matches at position 0). -/
def replaceFirstL (old new : List Char) : List Char → List Char
  | [] => if old.isPrefixOf ([] : List Char) then new else []
  | c :: t =>
    if old.isPrefixOf (c :: t) then new ++ (c :: t).drop old.length
    else c :: replaceFirstL old new t

/-- Python `s.replace(old, new, 1)` on strings. -/
def strReplaceFirst (s old new : String) : String :=
  ⟨replaceFirstL old.data new.data s.data⟩

/-- `true` when `needle` occurs in `s` strictly before position `i`. -/
def existsMatchBelow (needle s : List Char) (i : Nat) : Bool :=
  (List.range i).any fun j => needle.isPrefixOf (s.drop j)

/-- Python `s.strip()` (whitespace at both ends). -/
def pyStrip (s : String) : String :=
  ⟨(((s.data.dropWhile Char.isWhitespace).reverse.dropWhile Char.isWhitespace).reverse)⟩

/-- Python `s.rstrip()` (whitespace at the right end). -/
def rstripWs (s : String) : String :=
  ⟨(s.data.reverse.dropWhile Char.isWhitespace).reverse⟩

/-- Python `s.lstrip("/")`: drop every leading slash. -/
def lstripSlash (s : String) : String :=
  ⟨s.data.dropWhile (· = '/')⟩

/-- Python truthiness of an optional string (`None` and `""` are falsy). -/
def truthyS : Option String → Bool
  | some s => s ≠ ""
  | none => false

/-- Python `x or d` for an optional/empty string `x`. -/
def pyOr (o : Option String) (d : String) : String :=
  match o with
  | some s => if s = "" then d else s
  | none => d

/-- Python `s.split()`: split on whitespace runs, dropping empty pieces. -/
def pySplitWs (s : String) : List String :=
  (strSplitPred Char.isWhitespace s).filter (· ≠ "")

/-- Python `str.splitlines()` restricted to `\n` separators
(the only separator produced by the modelled file contents). -/
def pySplitlines (s : String) : List String :=
  if s = "" then []
  else
    let parts := strSplitChar '\n' s
    if parts.getLast? = some "" then parts.dropLast else parts

/-- Python `str.endswith(tuple)`. -/
def endsWithAny (name : String) (suffixes : List String) : Bool :=
  suffixes.any fun suf => suf.data.isSuffixOf name.data

/-- Insertion sort with the lexicographic string order (Python `sorted`). -/
def insertSorted (x : String) : List String → List String
  | [] => [x]
  | y :: ys => if x < y then x :: y :: ys else y :: insertSorted x ys

/-- Python `sorted` on a list of strings. -/
def pySorted : List String → List String
  | [] => []
  | x :: xs => insertSorted x (pySorted xs)

/-- Python `sep.join(pieces)`. -/
def pyJoinStr (sep : String) : List String → String
  | [] => ""
  | [x] => x
  | x :: y :: rest => x ++ sep ++ pyJoinStr sep (y :: rest)

/-- Python list repr of a list of strings: `['a', 'b']`. -/
def pyListRepr (xs : List String) : String :=
  "[" ++ pyJoinStr ", " (xs.map fun s => sq ++ s ++ sq) ++ "]"

/-! ## POSIX path functions (`os.path` on a POSIX system) -/

/-- `posixpath.join` of two components. -/
def pyJoin (a b : String) : String :=
  if pyStartswith b "/" then b
  else if a = "" ∨ "/".data.isSuffixOf a.data then a ++ b
  else a ++ "/" ++ b

/-- One step of `posixpath.normpath`'s component loop; `initSlashes` is
positive when the path is absolute, and the accumulator is kept reversed. -/
def normpathStep (initSlashes : Nat) (acc : List String) (comp : String) : List String :=
  if comp = "" ∨ comp = "." then acc
  else if comp ≠ ".." ∨ (initSlashes = 0 ∧ acc = []) ∨ acc.head? = some ".." then comp :: acc
  else if acc ≠ [] then acc.tail
  else acc

/-- `posixpath.normpath`: collapse `.`/`..`/`//`, preserving the CPython
special case of exactly two leading slashes. -/
def pyNormpath (path : String) : String :=
  if path = "" then "."
  else
    let initSlashes : Nat :=
      if pyStartswith path "//" ∧ ¬ pyStartswith path "///" then 2
      else if pyStartswith path "/" then 1 else 0
    let comps := strSplitChar '/' path
    let newComps := (comps.foldl (normpathStep initSlashes) []).reverse
    let joined := pyJoinStr "/" newComps
    let out := String.join (List.replicate initSlashes "/") ++ joined
    if out = "" then "." else out

/-- `posixpath.abspath` with the ambient process working directory `cwd`
made explicit. -/
def pyAbspath (cwd p : String) : String :=
  if pyStartswith p "/" then pyNormpath p else pyNormpath (pyJoin cwd p)

/-- `posixpath.relpath path start` with explicit working directory. -/
def commonLen : List String → List String → Nat
  | a :: as, b :: bs => if a = b then commonLen as bs + 1 else 0
  | _, _ => 0

/-- `posixpath.relpath` with explicit working directory `cwd`. -/
def pyRelpath (cwd p start : String) : String :=
  let pl := (strSplitChar '/' (pyAbspath cwd p)).filter (· ≠ "")
  let sl := (strSplitChar '/' (pyAbspath cwd start)).filter (· ≠ "")
  let i := commonLen sl pl
  let rel := List.replicate (sl.length - i) ".." ++ pl.drop i
  if rel = [] then "." else pyJoinStr "/" rel

/-! ## Path sandbox: `_safe_path` -/

/-- `_safe_path(root, path)` from `agent_kernel.py`: resolve `path` under the
workspace root, returning `none` when rejected.  The hidden input
`os.getcwd()` used by `os.path.abspath` is the explicit first argument.
The containment test is the source's naive string-prefix `startswith`. -/
def _safe_path (cwd root path : String) : Option String :=
  if root = "" then none
  else
    let full := pyNormpath (pyJoin root (lstripSlash path))
    if pyStartswith full (pyAbspath cwd root) then some full else none

/-! ## Command safety filter -/

/-- Modelled from the spec: `_is_command_blocked`, the Command Safety Filter,
is absent from the provided sources (only the test suite imports it from
`agent_kernel`).  Per the spec it is a case-sensitive substring deny-list
over the raw command text whose minimum patterns are recursive force-delete
of root or unconfined paths (`rm -rf /`, `rm -rf ~`) and piping a network
fetch directly into a shell interpreter (`curl ... | sh`,
`wget ... | bash`), returning a human-readable reason or null. -/
def _is_command_blocked (command : String) : Option String :=
  if containsStr command "rm -rf /" then
    some "recursive force-delete of the filesystem root"
  else if containsStr command "rm -rf ~" then
    some "recursive force-delete of the home directory"
  else if containsStr command "curl " && containsStr command "| sh" then
    some "pipes a network fetch directly into a shell interpreter"
  else if containsStr command "wget " && containsStr command "| bash" then
    some "pipes a network fetch directly into a shell interpreter"
  else none

/-! ## JSON rendering (`json.dumps` for the payloads the kernel builds).
Escaping is implemented for the characters the modelled payloads can
contain (backslash, quote, newline, tab, carriage return); the `\uXXXX`
escaping of other control and non-ASCII characters is elided. -/

inductive JVal where
  | s (v : String)
  | n (v : Int)
  | b (v : Bool)
  | arr (v : List JVal)
  | obj (v : List (String × JVal))
deriving Repr

/-- Escape one character as inside a JSON string literal. -/
def escapeJsonChar (c : Char) : String :=
  if c = '\\' then "\\\\"
  else if c = '"' then "\\\""
  else if c = '\n' then "\\n"
  else if c = '\t' then "\\t"
  else if c = '\r' then "\\r"
  else String.singleton c

/-- Escape a string as inside a JSON string literal. -/
def escapeJson (s : String) : String :=
  String.join (s.data.map escapeJsonChar)

mutual

/-- `json.dumps` with CPython's default `", "` / `": "` separators. -/
def dumps : JVal → String
  | .s v => "\"" ++ escapeJson v ++ "\""
  | .n v => toString v
  | .b v => if v then "true" else "false"
  | .arr vs => "[" ++ dumpsList vs ++ "]"
  | .obj kvs => lb ++ dumpsObj kvs ++ rb

/-- Comma-separated rendering of array elements. -/
def dumpsList : List JVal → String
  | [] => ""
  | [x] => dumps x
  | x :: y :: xs => dumps x ++ ", " ++ dumpsList (y :: xs)

/-- Comma-separated rendering of object entries. -/
def dumpsObj : List (String × JVal) → String
  | [] => ""
  | [kv] => "\"" ++ escapeJson kv.1 ++ "\": " ++ dumps kv.2
  | kv :: kv2 :: kvs =>
    "\"" ++ escapeJson kv.1 ++ "\": " ++ dumps kv.2 ++ ", " ++ dumpsObj (kv2 :: kvs)

end

/-- `json.dumps({"error": e})`. -/
def jerr (e : String) : String := dumps (.obj [("error", .s e)])

/-! ## Data model -/

/-- A conversation message. -/
structure Message where
  role : String
  content : String
deriving Repr, DecidableEq

/-- The execution context mapping (`context` dict).  Absent string keys are
modelled as `""` (the code always reads them with `or ""` / `or` chains);
`autonomous` models truthiness of `context.get("autonomous")`;
`inject_search_context` keeps the three-valued `is not False` test;
`codeiq_enabled`/`codelearn_enabled` model `context.get(k) is False`. -/
structure Ctx where
  workspace_root : String := ""
  autonomous : Bool := false
  inject_search_context : Option Bool := none
  codeiq_enabled : Bool := true
  codeiq_workspace : String := ""
  codelearn_enabled : Bool := true
  codelearn_guidance_url : String := ""
deriving Repr

/-- The parsed `args` mapping of a model tool call.  A field is `none` when
the key is absent from the dict. -/
structure Args where
  path : Option String := none
  old_string : Option String := none
  new_string : Option String := none
  command : Option String := none
  cwd : Option String := none
  pattern : Option String := none
  query : Option String := none
  messages : Option (List Message) := none
deriving Repr, DecidableEq

/-- A `pending_approval` value (the dicts carrying `PENDING_APPROVAL_KEY`);
the always-`True` marker key is represented by the type itself, and a
missing `"error"` key is `error := false`. -/
structure Pending where
  tool : String
  args : Args
  preview : String
  error : Bool := false
deriving Repr, DecidableEq

/-- A tool handler result: serialized text or a pending approval. -/
inductive ToolResult where
  | text (s : String)
  | pending (p : Pending)
deriving Repr

/-- One model turn after response parsing.  The chain
`_generate` / `raw.strip()` / `_extract_json_object` / `json.loads`
(the model call is an external collaborator; the extraction helpers live
in `builder_service.py`) is absorbed into the oracle producing this value:
`empty` is a falsy raw response, `noJson raw` means no balanced JSON object
was found in `raw`, `badJson` a `json.JSONDecodeError`, and
`obj reply tool args` the parsed dict's relevant keys. -/
inductive ModelResp where
  | empty
  | noJson (raw : String)
  | badJson
  | obj (reply : Option String) (tool : Option String) (args : Args)

/-- Outcome of `subprocess.run(command, shell=True, cwd=..., timeout=60)`. -/
inductive ExecOutcome where
  | success (stdout stderr : String) (returncode : Int)
  | timeout
  | failure (e : String)

/-- One `search_files` hit. -/
structure SearchHit where
  path : String
  line : Nat
  content : String
deriving Repr, DecidableEq

/-- Result of `_tool_search_files` before JSON serialization
(`hits` is the source's `matches` list, renamed because `matches` is a
reserved token in Lean). -/
inductive SearchOut where
  | err (e : String)
  | ok (pattern : String) (path : String) (hits : List SearchHit)
deriving Repr

/-- The ambient world: every OS / network / model primitive the kernel
touches, plus the mutable filesystem view (`readFile`) and the log of
spawned processes (`events`, a list of `(command, cwd)` pairs).  `Except`
results model primitives whose exceptions the code catches. -/
structure World where
  cwd : String := "/"
  readFile : String → Except String String := fun _ => .error "[Errno 2] No such file or directory"
  listdir : String → Except String (List String) := fun _ => .error "[Errno 2] No such file or directory"
  isdir : String → Bool := fun _ => false
  walk : String → List (String × List String) := fun _ => []
  size : String → Except String Nat := fun _ => .error "[Errno 2] No such file or directory"
  readLines : String → Except String (List String) := fun _ => .error "[Errno 2] No such file or directory"
  llmAvailable : Bool := true
  oracle : String → ModelResp := fun _ => .empty
  suggestQuestions : List Message → List String := fun _ => []
  convSpec : List Message → List (String × JVal) := fun _ => []
  specFiles : List (String × JVal) → List String := fun _ => []
  convSummary : List Message → String := fun _ => ""
  unifiedDiff : List String → List String → String → String → List String := fun _ _ _ _ => []
  codelearnFetch : Except String (List JVal × List JVal) := .error "unreachable"
  envCodelearnUrl : String := ""
  envCodeiqWorkspace : String := ""
  execOutcome : String → String → ExecOutcome := fun _ _ => .success "" "" 0
  events : List (String × String) := []

/-- A registered tool: name, prompt description, and handler.  The handler
models `fn(context, **args)` including the `try/except` at the call site:
a `.error` result is an exception the loop catches (argument-mismatch
`TypeError`s included). -/
structure ToolSpec where
  name : String
  description : String
  fn : Ctx → Args → World → Except String ToolResult

/-- The 3-tuple `run_loop` / `execute_pending_and_continue` return, with the
final world state made explicit. -/
structure RunOut where
  w : World
  messages : List Message
  reply : Option String
  pending : Option Pending

/-! ## Read-only filesystem tools -/

/-- `_tool_read_file(context, path)`. -/
def _tool_read_file (ctx : Ctx) (path : String) (w : World) : String :=
  if ctx.workspace_root = "" then
    jerr "Workspace not configured. Set workspace_root in context."
  else
    match _safe_path w.cwd ctx.workspace_root path with
    | none => jerr "Path outside workspace."
    | some full =>
      match w.readFile full with
      | .error e => jerr e
      | .ok content => dumps (.obj [("path", .s path), ("content", .s content)])

/-- `_tool_list_dir(context, path=".")`. -/
def _tool_list_dir (ctx : Ctx) (path : String) (w : World) : String :=
  if ctx.workspace_root = "" then
    jerr "Workspace not configured. Set workspace_root in context."
  else
    match _safe_path w.cwd ctx.workspace_root path with
    | none => jerr "Path outside workspace."
    | some full =>
      match w.listdir full with
      | .error e => jerr e
      | .ok entries =>
        dumps (.obj [("path", .s path), ("entries", .arr (entries.map .s))])

/-- The `text_ext` tuple of `_tool_search_files`. -/
def text_ext : List String :=
  [".py", ".js", ".ts", ".tsx", ".jsx", ".html", ".css", ".json", ".md",
   ".txt", ".yml", ".yaml", ".toml", ".sh", ".bat", ".env"]

/-- The inner line loop of `_tool_search_files`: append a hit per matching
line (1-based numbering), breaking at `max_matches = 100`. -/
def scanLines (pattern relPath : String) : List String → Nat → List SearchHit → List SearchHit
  | [], _, acc => acc
  | ln :: rest, lineNo, acc =>
    if containsStr ln pattern then
      let acc2 := acc ++ [⟨relPath, lineNo, strTake (rstripWs ln) 200⟩]
      if 100 ≤ acc2.length then acc2 else scanLines pattern relPath rest (lineNo + 1) acc2
    else scanLines pattern relPath rest (lineNo + 1) acc

/-- Per-file body of `_tool_search_files`: extension filter, size cap,
line scan; `OSError`/`UnicodeDecodeError` on `getsize`/`open` skip the
file (`continue`). -/
def scanFile (w : World) (pattern dirpath relDir name : String) (acc : List SearchHit) : List SearchHit :=
  if ¬ (endsWithAny name text_ext ∨ ¬ containsStr name ".") then acc
  else
    let fullPath := pyJoin dirpath name
    match w.size fullPath with
    | .error _ => acc
    | .ok sz =>
      if 500000 < sz then acc
      else
        match w.readLines fullPath with
        | .error _ => acc
        | .ok lns =>
          let relPath := strReplaceChar '\\' '/' (if relDir ≠ "." then pyJoin relDir name else name)
          scanLines pattern relPath lns 1 acc

/-- The filename loop of `_tool_search_files`, breaking at 100 matches. -/
def scanNames (w : World) (pattern dirpath relDir : String) : List String → List SearchHit → List SearchHit
  | [], acc => acc
  | n :: rest, acc =>
    if 100 ≤ acc.length then acc
    else scanNames w pattern dirpath relDir rest (scanFile w pattern dirpath relDir n acc)

/-- The `os.walk` directory loop of `_tool_search_files`. -/
def scanDirs (w : World) (pattern base : String) : List (String × List String) → List SearchHit → List SearchHit
  | [], acc => acc
  | (dirpath, filenames) :: rest, acc =>
    if 100 ≤ acc.length then acc
    else
      let relDir := if dirpath ≠ base then pyRelpath w.cwd dirpath base else "."
      scanDirs w pattern base rest (scanNames w pattern dirpath relDir filenames acc)

/-- `_tool_search_files(context, pattern, path=".")` up to JSON
serialization (its outer `except Exception` is unreachable in the model:
all fallible primitives are caught per-file). -/
def _tool_search_files (ctx : Ctx) (pattern path : String) (w : World) : SearchOut :=
  if ctx.workspace_root = "" then
    .err "Workspace not configured. Set workspace_root in context."
  else
    match _safe_path w.cwd ctx.workspace_root path with
    | none => .err "Path outside workspace."
    | some baseFull =>
      if pattern = "" then .err "pattern is required."
      else .ok pattern path (scanDirs w pattern baseFull (w.walk baseFull) [])

/-- JSON text of a `SearchOut`, as `_tool_search_files` returns it. -/
def searchOutText : SearchOut → String
  | .err e => jerr e
  | .ok pattern path hits =>
    dumps (.obj [("pattern", .s pattern), ("path", .s path),
      ("matches", .arr (hits.map fun h =>
        .obj [("path", .s h.path), ("line", .n h.line), ("content", .s h.content)]))])

/-! ## Approval gate: previews and executions -/

/-- `_tool_edit_file_preview(context, path, old_string, new_string)`:
returns a pending approval with a diff preview and performs no write.
`difflib.unified_diff` is the world's `unifiedDiff` primitive. -/
def _tool_edit_file_preview (ctx : Ctx) (path old_string new_string : String) (w : World) : Pending :=
  let argsD : Args := {path := some path, old_string := some old_string, new_string := some new_string}
  if ctx.workspace_root = "" then
    ⟨"edit_file", argsD, "Workspace not configured.", true⟩
  else
    match _safe_path w.cwd ctx.workspace_root path with
    | none => ⟨"edit_file", argsD, "Path outside workspace.", true⟩
    | some full =>
      match w.readFile full with
      | .error e => ⟨"edit_file", argsD, "Cannot read file: " ++ e, true⟩
      | .ok current =>
        if ¬ containsStr current old_string then
          ⟨"edit_file", argsD, "old_string not found in file (file may have changed).", true⟩
        else
          let newContent := strReplaceFirst current old_string new_string
          let diff := pyJoinStr "\n"
            (w.unifiedDiff (pySplitlines current) (pySplitlines newContent) path path)
          ⟨"edit_file", argsD, strTake diff 4000 ++ (if 4000 < diff.length then "..." else ""), false⟩

/-- Point update of the filesystem view after a successful write. -/
def fsUpdate (f : String → Except String String) (key val : String) : String → Except String String :=
  fun q => if q = key then .ok val else f q

/-- `_execute_edit_file(context, path, old_string, new_string)`: the actual
edit after approval.  The `open(..., "w")` write is modelled as succeeding
(a write exception would be caught and reported like the read errors). -/
def _execute_edit_file (ctx : Ctx) (path old_string new_string : String) (w : World) : World × String :=
  match _safe_path w.cwd ctx.workspace_root path with
  | none => (w, jerr "Path outside workspace or workspace not set.")
  | some full =>
    match w.readFile full with
    | .error e => (w, jerr e)
    | .ok content =>
      if ¬ containsStr content old_string then
        (w, jerr "old_string not found in file.")
      else
        ({w with readFile := fsUpdate w.readFile full (strReplaceFirst content old_string new_string)},
         dumps (.obj [("path", .s path), ("status", .s "updated")]))

/-- `_tool_run_terminal_preview(context, command, cwd=None)`: pending
approval with a command preview; runs nothing. -/
def _tool_run_terminal_preview (command : String) (cwd : Option String) : Pending :=
  let preview := "Command: " ++ command ++
    (match cwd with
     | some c => if c ≠ "" then "\nCwd: " ++ c else ""
     | none => "")
  ⟨"run_terminal", {command := some command, cwd := cwd}, preview, false⟩

/-- The working-directory choice of `_execute_run_terminal`: a truthy `cwd`
is resolved through `_safe_path`, falling back to the workspace root
(`_safe_path(root, cwd) or root`); otherwise the root itself. -/
def runTerminalCwd (ctx : Ctx) (w : World) (cwd : Option String) : String :=
  let root := ctx.workspace_root
  match cwd with
  | some c => if c ≠ "" then (_safe_path w.cwd root c).getD root else root
  | none => root

/-- `_execute_run_terminal(context, command, cwd=None)`: spawn the command
through the shell.  The spawn is recorded in `events`; its outcome comes
from the world. -/
def _execute_run_terminal (ctx : Ctx) (command : String) (cwd : Option String) (w : World) : World × String :=
  let runCwd := runTerminalCwd ctx w cwd
  let w2 := {w with events := w.events ++ [(command, runCwd)]}
  match w.execOutcome command runCwd with
  | .success out err rc =>
    (w2, dumps (.obj [("stdout", .s (strTake out 8000)), ("stderr", .s (strTake err 2000)),
      ("returncode", .n rc)]))
  | .timeout => (w2, jerr "Command timed out after 60s.")
  | .failure e => (w2, jerr e)

/-! ## Optional CodeIQ tools and CodeLearn guidance -/

/-- The text `_run_codeiq` always produces: `subprocess.get_executable`
does not exist, so building `cmd` raises `AttributeError`, which the
`except Exception` turns into this message — no process is ever spawned. -/
def CODEIQ_ERR : String :=
  "CodeIQ error: module " ++ sq ++ "subprocess" ++ sq ++ " has no attribute " ++
    sq ++ "get_executable" ++ sq

/-- The `_search` handler of the CodeIQ tools (accepts arbitrary kwargs). -/
def codeiqSearchFn (_ctx : Ctx) (a : Args) (_w : World) : Except String ToolResult :=
  let q := pyOr a.query ""
  if q = "" then .ok (.text (jerr "query required"))
  else .ok (.text (dumps (.obj [("query", .s q), ("output", .s CODEIQ_ERR)])))

/-- The `_analyze` handler of the CodeIQ tools. -/
def codeiqAnalyzeFn (_ctx : Ctx) (a : Args) (_w : World) : Except String ToolResult :=
  let p := pyOr a.path "."
  .ok (.text (dumps (.obj [("path", .s p), ("output", .s CODEIQ_ERR)])))

/-- The `search_code` tool spec. -/
def searchCodeTool : ToolSpec :=
  ⟨"search_code",
   "Semantic search over the codebase (CodeIQ). Input: query (string). Set CODEIQ_WORKSPACE to enable.",
   codeiqSearchFn⟩

/-- The `analyze_code` tool spec. -/
def analyzeCodeTool : ToolSpec :=
  ⟨"analyze_code",
   "Run code analysis (issues, duplicates, complexity) on the workspace (CodeIQ). Input: path (optional). Set CODEIQ_WORKSPACE to enable.",
   codeiqAnalyzeFn⟩

/-- `_get_codeiq_tools(context)`: optional tools, enabled only when the
context does not disable them and the configured workspace is a directory. -/
def _get_codeiq_tools (ctx : Ctx) (w : World) : List ToolSpec :=
  if ctx.codeiq_enabled = false then []
  else
    let workspace := pyStrip (pyOr (some ctx.codeiq_workspace) w.envCodeiqWorkspace)
    if workspace = "" ∨ w.isdir workspace = false then []
    else [searchCodeTool, analyzeCodeTool]

/-- `str()` of a decoded JSON value, used for non-dict guidance items
(approximated by the JSON rendering; not reached by any claim). -/
def jvalPyStr : JVal → String
  | .s v => v
  | v => dumps v

/-- `a.get("pattern", a) if isinstance(a, dict) else str(a)` for one
guidance item; `none` when the resulting value is not a string, so that
`"; ".join` would raise `TypeError` (caught by the outer handler). -/
def guidanceItem : JVal → Option String
  | .obj o =>
    match (o.find? (·.1 = "pattern")).map (·.2) with
    | some (JVal.s s) => some s
    | some _ => none
    | none => none
  | v => some (jvalPyStr v)

/-- `guidanceItem` across a list, failing if any item fails. -/
def guidanceItems : List JVal → Option (List String)
  | [] => some []
  | x :: xs =>
    match guidanceItem x, guidanceItems xs with
    | some s, some ss => some (s :: ss)
    | _, _ => none

/-- `_get_codelearn_guidance_block(context)`: fetch avoid/encourage
guidance over HTTP (the fetch and JSON decode are the world's
`codelearnFetch`); any exception yields the empty block. -/
def _get_codelearn_guidance_block (ctx : Ctx) (w : World) : String :=
  if ctx.codelearn_enabled = false then ""
  else
    let url := pyStrip (pyOr (some ctx.codelearn_guidance_url) w.envCodelearnUrl)
    if url = "" then ""
    else
      match w.codelearnFetch with
      | .error _ => ""
      | .ok (avoidRaw, encourageRaw) =>
        let avoid := avoidRaw.take 5
        let encourage := encourageRaw.take 5
        if avoid.isEmpty && encourage.isEmpty then ""
        else
          match guidanceItems avoid, guidanceItems encourage with
          | some av, some en =>
            pyJoinStr "\n"
              (["\nCode quality guidance (from CodeLearn):"] ++
               (if avoid.isEmpty then [] else ["Avoid: " ++ pyJoinStr "; " av]) ++
               (if encourage.isEmpty then [] else ["Encourage: " ++ pyJoinStr "; " en]))
          | _, _ => ""

/-! ## Tool registry (`get_default_tools`) -/

/-- Message standing for an argument-mismatch `TypeError` raised when the
loop calls `fn(context, **args)` (exact CPython wording not modelled; the
loop only embeds it in an `{"error": ...}` payload). -/
def TYPE_ERR : String := "TypeError: unexpected or missing argument"

/-- Handler of `suggest_questions` (`_suggest`, takes `**kwargs`). -/
def suggestFn (_ctx : Ctx) (a : Args) (w : World) : Except String ToolResult :=
  let msgs := a.messages.getD []
  .ok (.text (dumps (.obj [("questions", .arr ((w.suggestQuestions msgs).map .s))])))

/-- Handler of `generate_app` (`_generate_app`, takes `**kwargs`);
the builder-service pipeline is the world's `convSpec`/`specFiles`/
`convSummary` oracles. -/
def generateAppFn (_ctx : Ctx) (a : Args) (w : World) : Except String ToolResult :=
  let msgs := a.messages.getD []
  let spec := w.convSpec msgs
  let files := w.specFiles spec
  let summary := w.convSummary msgs
  let name :=
    match (spec.find? (·.1 = "name")).map (·.2) with
    | some v => jvalPyStr v
    | none => "MyApp"
  .ok (.text (dumps (.obj [("spec", .obj spec), ("files", .arr (files.map .s)),
    ("summary", .s summary),
    ("message", .s ("Generated app " ++ sq ++ name ++ sq ++ " with " ++
      toString files.length ++ " files."))])))

/-- Registry wrapper for `read_file`: `_tool_read_file(context, path)` has a
required `path` and no other parameter, so other keys raise `TypeError`. -/
def readFileFn (ctx : Ctx) (a : Args) (w : World) : Except String ToolResult :=
  if a.old_string.isSome || a.new_string.isSome || a.command.isSome || a.cwd.isSome ||
     a.pattern.isSome || a.query.isSome || a.messages.isSome then .error TYPE_ERR
  else
    match a.path with
    | none => .error TYPE_ERR
    | some p => .ok (.text (_tool_read_file ctx p w))

/-- Registry wrapper for `list_dir` (`path` defaults to `"."`). -/
def listDirFn (ctx : Ctx) (a : Args) (w : World) : Except String ToolResult :=
  if a.old_string.isSome || a.new_string.isSome || a.command.isSome || a.cwd.isSome ||
     a.pattern.isSome || a.query.isSome || a.messages.isSome then .error TYPE_ERR
  else .ok (.text (_tool_list_dir ctx (a.path.getD ".") w))

/-- Registry lambda for `search_files`
(`pattern or kwargs.get("query") or ""`, `path or ... or "."`; `**kwargs`
absorbs every other key). -/
def searchFilesFn (ctx : Ctx) (a : Args) (w : World) : Except String ToolResult :=
  let pattern := pyOr a.pattern (pyOr a.query "")
  let path := pyOr a.path "."
  .ok (.text (searchOutText (_tool_search_files ctx pattern path w)))

/-- Registry lambda for `edit_file` (`path or ""` etc.; extra keys raise). -/
def editFileFn (ctx : Ctx) (a : Args) (w : World) : Except String ToolResult :=
  if a.command.isSome || a.cwd.isSome || a.pattern.isSome || a.query.isSome ||
     a.messages.isSome then .error TYPE_ERR
  else .ok (.pending (_tool_edit_file_preview ctx (pyOr a.path "") (pyOr a.old_string "")
    (pyOr a.new_string "") w))

/-- Registry lambda for `run_terminal` (`command or ""`, `cwd` passed
through; extra keys raise). -/
def runTerminalFn (_ctx : Ctx) (a : Args) (_w : World) : Except String ToolResult :=
  if a.path.isSome || a.old_string.isSome || a.new_string.isSome || a.pattern.isSome ||
     a.query.isSome || a.messages.isSome then .error TYPE_ERR
  else .ok (.pending (_tool_run_terminal_preview (pyOr a.command "") a.cwd))

/-- The `suggest_questions` tool spec. -/
def suggestQuestionsTool : ToolSpec :=
  ⟨"suggest_questions",
   "Suggest 1-2 short follow-up questions to clarify the user" ++ sq ++
     "s app or task. Input: messages (list of " ++ lb ++ "role, content" ++ rb ++ ").",
   suggestFn⟩

/-- The `generate_app` tool spec. -/
def generateAppTool : ToolSpec :=
  ⟨"generate_app",
   "Generate a web app (HTML/CSS/JS) from the conversation so far. Input: messages (list of " ++
     lb ++ "role, content" ++ rb ++
     "). Use when the user is done describing and wants the app.",
   generateAppFn⟩

/-- The `read_file` tool spec. -/
def readFileTool : ToolSpec :=
  ⟨"read_file",
   "Read a file from the workspace. Input: path (relative path). Requires workspace_root in context.",
   readFileFn⟩

/-- The `list_dir` tool spec. -/
def listDirTool : ToolSpec :=
  ⟨"list_dir",
   "List directory contents in the workspace. Input: path (relative path, default " ++ sq ++
     "." ++ sq ++ "). Requires workspace_root in context.",
   listDirFn⟩

/-- The `search_files` tool spec. -/
def searchFilesTool : ToolSpec :=
  ⟨"search_files",
   "Search for a literal string in workspace files (e.g. " ++ sq ++ "TODO" ++ sq ++ ", " ++
     sq ++ "def foo" ++ sq ++
     "). Input: pattern or query (required), path (optional, default " ++ sq ++ "." ++ sq ++
     "). Returns matching path, line number, and line content. Requires workspace_root in context.",
   searchFilesFn⟩

/-- The `edit_file` tool spec. -/
def editFileTool : ToolSpec :=
  ⟨"edit_file",
   "Edit a file: replace old_string with new_string (first occurrence). Requires user approval. Input: path, old_string, new_string. Requires workspace_root in context.",
   editFileFn⟩

/-- The `run_terminal` tool spec. -/
def runTerminalTool : ToolSpec :=
  ⟨"run_terminal",
   "Run a shell command in the workspace. Requires user approval. Input: command (str), cwd (optional, relative path). Requires workspace_root in context.",
   runTerminalFn⟩

/-- `get_default_tools(context)`: the seven built-in tools plus the optional
CodeIQ tools.  Descriptions are the source strings verbatim. -/
def get_default_tools (ctx : Ctx) (w : World) : List ToolSpec :=
  [suggestQuestionsTool, generateAppTool, readFileTool, listDirTool,
   searchFilesTool, editFileTool, runTerminalTool] ++ _get_codeiq_tools ctx w

/-- `tool_map[name]` lookup: a Python dict comprehension keeps the last
binding of a duplicated name. -/
def toolFind (ts : List ToolSpec) (n : String) : Option ToolSpec :=
  ts.reverse.find? (fun t => t.name == n)

/-- `list(tool_map.keys())`: insertion order, first occurrence kept. -/
def toolKeysAux : List String → List String → List String
  | [], _ => []
  | n :: rest, seen =>
    if seen.contains n then toolKeysAux rest seen else n :: toolKeysAux rest (n :: seen)

/-- The key list shown in the corrective invalid-tool message. -/
def toolKeys (ts : List ToolSpec) : List String :=
  toolKeysAux (ts.map (·.name)) []

/-! ## Context injector (`_get_workspace_context_block`) -/

/-- The most recent user message with non-blank content, stripped
(the `for m in reversed(messages)` scan). -/
def lastUserContent : List Message → Option String
  | [] => none
  | m :: rest =>
    match lastUserContent rest with
    | some s => some s
    | none => if m.role = "user" ∧ pyStrip m.content ≠ "" then some (pyStrip m.content) else none

/-- One search-hit line of the workspace context block. -/
def hitLine (h : SearchHit) : String :=
  "  " ++ h.path ++ ":" ++ toString h.line ++ " " ++ strTake h.content 80

/-- The `for w in words[:2]` quick-search loop: first word whose search has
matches contributes up to five hit lines, then the loop breaks.  An error
payload decodes to a dict without `matches` and the loop just continues
(the modelled search never raises, so the `except` clause is unreachable). -/
def quickSearchLines (ctx : Ctx) (w : World) : List String → List String
  | [] => []
  | q :: rest =>
    match _tool_search_files ctx q "." w with
    | .err _ => quickSearchLines ctx w rest
    | .ok _ _ hits =>
      if hits.isEmpty then quickSearchLines ctx w rest
      else (hits.take 5).map hitLine

/-- `[w for w in last_user.replace(",", " ").split() if len(w) > 3][:5]`. -/
def searchWords (lastUser : String) : List String :=
  ((pySplitWs (strReplaceChar ',' ' ' lastUser)).filter (fun s => 3 < s.length)).take 5

/-- `_get_workspace_context_block(context, messages)`: best-effort workspace
context for the system prompt. -/
def _get_workspace_context_block (ctx : Ctx) (messages : List Message) (w : World) : String :=
  let root := pyStrip ctx.workspace_root
  if root = "" ∨ w.isdir root = false then ""
  else
    let lines := ["\nWorkspace context (workspace_root is set):"]
    let lines := lines ++
      (match w.listdir root with
       | .ok entries => ["Top-level files/dirs: " ++ pyJoinStr ", " ((pySorted entries).take 40)]
       | .error _ => ["(could not list workspace)"])
    let lines := lines ++
      (match lastUserContent messages with
       | none => []
       | some lastUser =>
         if ctx.inject_search_context = some false then []
         else
           let words := searchWords lastUser
           if words.isEmpty then [] else quickSearchLines ctx w (words.take 2))
    if 1 < lines.length then pyJoinStr "\n" lines else ""

/-! ## The conversation/tool loop (`run_loop`) -/

/-- The sentinel substring detecting an already-inserted system prompt. -/
def SENTINEL : String := "You are a helpful coding"

/-- `"I don't have an LLM configured. Set OPENAI_API_KEY or ANTHROPIC_API_KEY."` -/
def MSG_NO_LLM : String :=
  "I don" ++ sq ++ "t have an LLM configured. Set OPENAI_API_KEY or ANTHROPIC_API_KEY."

/-- Reply when `_generate` returns a falsy raw response. -/
def MSG_GEN_FAIL : String :=
  "I couldn" ++ sq ++ "t generate a response. Check your LLM configuration."

/-- Reply when no balanced JSON object was found but the raw text looked
like an attempted structured response. -/
def MSG_BAD_FORMAT : String :=
  "I didn" ++ sq ++ "t understand the response format."

/-- Reply when `json.loads` fails on the extracted object. -/
def MSG_PARSE_FAIL : String :=
  "I couldn" ++ sq ++ "t parse my own response. Please try again."

/-- Reply after exhausting `max_turns`. -/
def MSG_TURN_LIMIT : String :=
  "I hit the turn limit. Please try a shorter conversation or rephrase."

/-- `f"- {name}: {description}"` lines of the system prompt. -/
def toolDescriptions (tools : List ToolSpec) : String :=
  pyJoinStr "\n" (tools.map fun t => "- " ++ t.name ++ ": " ++ t.description)

/-- The approval note appended to the system prompt. -/
def approvalNote (autonomous : Bool) : String :=
  if autonomous then
    " Autonomous mode: edit_file and run_terminal will run immediately without asking."
  else
    " For file edits or running commands, use edit_file or run_terminal; the user will approve before they run."

/-- The full system prompt text (the source f-string verbatim, with literal
braces written through `lb`/`rb`). -/
def systemText (tools : List ToolSpec) (guidance workspace : String) (autonomous : Bool) : String :=
  "You are a helpful coding and product assistant. You have access to these tools:\n\n" ++
  toolDescriptions tools ++ "\n" ++ guidance ++ workspace ++
  "\n\nReply with JSON only. Either:\n1) To call a tool: " ++ lb ++
  "\"thought\": \"brief reasoning\", \"tool\": \"tool_name\", \"args\": " ++ lb ++ "..." ++ rb ++ rb ++
  "\n   Use \"messages\" for the current conversation when a tool needs it (list of " ++ lb ++
  "\"role\": \"user\"|\"system\", \"content\": \"...\"" ++ rb ++
  ").\n2) To reply to the user and finish: " ++ lb ++
  "\"thought\": \"brief reasoning\", \"reply\": \"your reply text\"" ++ rb ++
  "\n\nBe concise." ++ approvalNote autonomous

/-- The system prompt of a `run_loop` invocation with resolved tools. -/
def runLoopSystem (tools : List ToolSpec) (ctx : Ctx) (w : World) (messages : List Message) : String :=
  systemText tools (_get_codelearn_guidance_block ctx w)
    (_get_workspace_context_block ctx messages w) ctx.autonomous

/-- Insert the system prompt unless the first message already carries the
sentinel (`if not current or current[0].get("role") != "system" or
"You are a helpful coding" not in ...`, with the branches flipped). -/
def insertSystem (messages : List Message) (sys : String) : List Message :=
  match messages with
  | [] => [⟨"system", sys⟩]
  | m :: _ =>
    if m.role == "system" && containsStr m.content SENTINEL then messages
    else ⟨"system", sys⟩ :: messages

/-- The per-turn prompt built from the transcript. -/
def buildPrompt (current : List Message) : String :=
  "Current conversation:\n\n" ++
  pyJoinStr "\n" (current.map fun m => strUpper m.role ++ ": " ++ m.content) ++
  "\n\nYour next step (JSON only):"

/-- The corrective system message for an unregistered tool name
(`f"[Invalid tool: {tool_name}. Valid: {list(tool_map.keys())}]"`;
a missing key prints as `None`). -/
def invalidToolMsg (toolName : Option String) (tools : List ToolSpec) : String :=
  "[Invalid tool: " ++ (match toolName with | none => "None" | some s => s) ++
  ". Valid: " ++ pyListRepr (toolKeys tools) ++ "]"

/-- `f"[Tool {tool_name} result]: {result}"` as a system message. -/
def toolResultMsg (toolName result : String) : Message :=
  ⟨"system", "[Tool " ++ toolName ++ " result]: " ++ result⟩

/-- `{"role": m["role"], "content": m["content"]}` copies of the transcript
injected into `suggest_questions`/`generate_app` args when absent. -/
def injectMessages (n : String) (a : Args) (current : List Message) : Args :=
  if (n = "suggest_questions" ∨ n = "generate_app") ∧ a.messages = none then
    {a with messages := some (current.map fun m => ⟨m.role, m.content⟩)}
  else a

/-- The autonomous-mode inline execution of an approved pending value
(`args = result.get("args") or {}`, then dispatch on the tool name). -/
def autonomousExec (ctx : Ctx) (n : String) (p : Pending) (w : World) : World × String :=
  let a2 := p.args
  if n = "edit_file" then
    _execute_edit_file ctx (a2.path.getD "") (a2.old_string.getD "") (a2.new_string.getD "") w
  else
    _execute_run_terminal ctx (a2.command.getD "") a2.cwd w

/-- The `for turn in range(max_turns)` body of `run_loop`, one constructor
of `ModelResp` per parse outcome. -/
def runLoopAux (ctx : Ctx) (tools : List ToolSpec) : Nat → List Message → World → RunOut
  | 0, current, w => ⟨w, current, some MSG_TURN_LIMIT, none⟩
  | Nat.succ fuel, current, w =>
    match w.oracle (buildPrompt current) with
    | .empty => ⟨w, current, some MSG_GEN_FAIL, none⟩
    | .noJson raw =>
      if containsStr (strLower raw) "reply" = false ∧ containsStr (strLower raw) "tool" = false then
        ⟨w, current, some (strTake raw 1000), none⟩
      else ⟨w, current, some MSG_BAD_FORMAT, none⟩
    | .badJson => ⟨w, current, some MSG_PARSE_FAIL, none⟩
    | .obj reply tool args =>
      if truthyS reply then ⟨w, current, some (pyStrip (reply.getD "")), none⟩
      else
        match tool with
        | none =>
          runLoopAux ctx tools fuel (current ++ [⟨"system", invalidToolMsg none tools⟩]) w
        | some n =>
          if n = "" then
            runLoopAux ctx tools fuel (current ++ [⟨"system", invalidToolMsg (some n) tools⟩]) w
          else
            match toolFind tools n with
            | none =>
              runLoopAux ctx tools fuel (current ++ [⟨"system", invalidToolMsg (some n) tools⟩]) w
            | some ts =>
              match ts.fn ctx (injectMessages n args current) w with
              | .error e =>
                runLoopAux ctx tools fuel (current ++ [toolResultMsg n (jerr e)]) w
              | .ok (.text s) =>
                runLoopAux ctx tools fuel (current ++ [toolResultMsg n s]) w
              | .ok (.pending p) =>
                if ctx.autonomous && (n == "edit_file" || n == "run_terminal") then
                  runLoopAux ctx tools fuel
                    (current ++ [toolResultMsg n (autonomousExec ctx n p w).2])
                    (autonomousExec ctx n p w).1
                else ⟨w, current, none, some p⟩

/-- `tools or get_default_tools(context)` (an empty list is falsy). -/
def resolvedTools (toolsOpt : Option (List ToolSpec)) (ctx : Ctx) (w : World) : List ToolSpec :=
  match toolsOpt with
  | none => get_default_tools ctx w
  | some [] => get_default_tools ctx w
  | some ts => ts

/-- `run_loop(messages, context, tools, max_turns)`: insert the system
prompt if absent, short-circuit when no model client is available, then
run the bounded turn loop. -/
def run_loop (messages : List Message) (ctx : Ctx) (toolsOpt : Option (List ToolSpec))
    (max_turns : Nat) (w : World) : RunOut :=
  if w.llmAvailable = false then
    ⟨w, insertSystem messages (runLoopSystem (resolvedTools toolsOpt ctx w) ctx w messages),
     some MSG_NO_LLM, none⟩
  else
    runLoopAux ctx (resolvedTools toolsOpt ctx w) max_turns
      (insertSystem messages (runLoopSystem (resolvedTools toolsOpt ctx w) ctx w messages)) w

/-- `execute_pending_and_continue(messages, context, approved_tool,
approved_args, max_turns_after)`: execute the approved side effect, append
the result marker, and re-enter the loop with the default tools. -/
def execute_pending_and_continue (messages : List Message) (ctx : Ctx) (approved_tool : String)
    (approved_args : Args) (max_turns_after : Nat) (w : World) : RunOut :=
  let pr : World × String :=
    if approved_tool = "edit_file" then
      _execute_edit_file ctx (approved_args.path.getD "") (approved_args.old_string.getD "")
        (approved_args.new_string.getD "") w
    else if approved_tool = "run_terminal" then
      _execute_run_terminal ctx (approved_args.command.getD "") approved_args.cwd w
    else (w, jerr ("Unknown tool: " ++ approved_tool))
  run_loop (messages ++ [⟨"system", "[User approved " ++ approved_tool ++ ". Result]: " ++ pr.2⟩])
    ctx none max_turns_after pr.1

/-! ## Derived predicates used by the theorems -/

/-- A message the loop may append to the transcript: a corrective
invalid-tool message or a tool-result marker, always system-role. -/
def appendedOk (m : Message) : Bool :=
  m.role == "system" &&
    ("[Invalid tool: ".data.isPrefixOf m.content.data ||
     "[Tool ".data.isPrefixOf m.content.data)

/-- A message whose content starts with the system-prompt sentinel (the
genuine system prompt does; corrective and tool-result messages do not). -/
def isSysPromptMsg (m : Message) : Bool :=
  SENTINEL.data.isPrefixOf m.content.data

/-- First-occurrence correctness of `strReplaceFirst s old new`: the result
is the splice `take i ++ new ++ drop (i + |old|)` at the first index `i`
where `old` occurs, `old` does occur there, and it occurs nowhere earlier. -/
def replaceFirstHolds (old new s : String) : Bool :=
  match firstMatchIdx old.data s.data with
  | none => false
  | some i =>
    (replaceFirstL old.data new.data s.data ==
      s.data.take i ++ new.data ++ s.data.drop (i + old.data.length)) &&
    old.data.isPrefixOf (s.data.drop i) &&
    !(existsMatchBelow old.data s.data i)

/-! ## Concrete fixtures for the closed theorems -/

/-- A context with a workspace root and autonomous mode on. -/
def autoCtx : Ctx := { workspace_root := "/ws", autonomous := true }

/-- A context with only a workspace root. -/
def wsCtx : Ctx := { workspace_root := "/ws" }

/-- A world whose model always requests `run_terminal` with `rm -rf /`. -/
def rmWorld : World :=
  { oracle := fun _ => .obj none (some "run_terminal") {command := some "rm -rf /"} }

/-- A world with no configured model client. -/
def noLlmWorld : World := { llmAvailable := false }

/-- A world whose model always requests the unregistered tool `bogus`. -/
def bogusWorld : World :=
  { oracle := fun _ => .obj none (some "bogus") {} }

/-- A world whose model always requests an `edit_file` with empty args. -/
def editReqWorld : World :=
  { oracle := fun _ => .obj none (some "edit_file") {},
    readFile := fun p => if p = "/ws/a.txt" then .ok "one old line" else .error "missing" }

/-- A world in which `/ws` is a directory whose listing raises `OSError`. -/
def listErrWorld : World :=
  { isdir := fun p => p = "/ws", listdir := fun _ => .error "boom" }

/-- A world holding the file `/ws/a.txt` with content `"abcabcd"`. -/
def editFileWorld : World :=
  { readFile := fun p => if p = "/ws/a.txt" then .ok "abcabcd" else .error "missing" }

/-! ## Supporting lemmas: strings -/

/-- String concatenation concatenates the character lists. -/
theorem strData_append (s t : String) : (s ++ t).data = s.data ++ t.data := rfl

/-- A prefix occurrence is an occurrence. -/
theorem containsL_of_isPrefixOf {needle s : List Char} (h : needle.isPrefixOf s = true) :
    containsL needle s = true := by
  cases s with
  | nil => simpa [containsL] using h
  | cons c t => simp [containsL, h]

/-- An occurrence in `t` is an occurrence in `s ++ t`. -/
theorem containsL_append {needle t : List Char} (s : List Char) (h : containsL needle t = true) :
    containsL needle (s ++ t) = true := by
  induction s with
  | nil => simpa using h
  | cons c cs ih => simp [containsL, ih]

/-- `firstMatchIdx` finds an index exactly when the needle occurs. -/
theorem firstMatchIdx_isSome (needle : List Char) :
    ∀ s, (firstMatchIdx needle s).isSome = containsL needle s := by
  intro s
  induction s with
  | nil => cases needle <;> simp [firstMatchIdx, containsL, List.isPrefixOf]
  | cons c t ih =>
    simp only [firstMatchIdx, containsL]
    by_cases h : needle.isPrefixOf (c :: t) <;> simp [h, ih]

/-- `replaceFirstL` splices at the index `firstMatchIdx` finds, the needle
occurs there, and at no smaller index. -/
theorem replaceFirst_at (old new : List Char) :
    ∀ (s : List Char) (i : Nat), firstMatchIdx old s = some i →
      old.isPrefixOf (s.drop i) = true ∧ existsMatchBelow old s i = false ∧
      replaceFirstL old new s = s.take i ++ new ++ s.drop (i + old.length) := by
  intro s
  induction s with
  | nil =>
    intro i h
    simp only [firstMatchIdx] at h
    split at h
    · next hp =>
      obtain rfl : 0 = i := Option.some.inj h
      refine ⟨by simpa using hp, by simp [existsMatchBelow], ?_⟩
      simp [replaceFirstL, hp]
    · exact absurd h (by simp)
  | cons c t ih =>
    intro i h
    simp only [firstMatchIdx] at h
    by_cases hp : old.isPrefixOf (c :: t)
    · rw [if_pos hp] at h
      obtain rfl : 0 = i := Option.some.inj h
      refine ⟨by simpa using hp, by simp [existsMatchBelow], ?_⟩
      simp [replaceFirstL, hp]
    · rw [if_neg hp] at h
      obtain ⟨j, hj, rfl⟩ := Option.map_eq_some'.mp h
      obtain ⟨h1, h2, h3⟩ := ih j hj
      refine ⟨by simpa using h1, ?_, ?_⟩
      · have hrw : existsMatchBelow old (c :: t) (j + 1) =
            (old.isPrefixOf (c :: t) || existsMatchBelow old t j) := by
          unfold existsMatchBelow
          rw [List.range_succ_eq_map, List.any_cons, List.any_map]
          simp only [List.drop_zero, Function.comp_def, List.drop_succ_cons]
        rw [hrw, h2]
        simp [hp]
      · simp only [replaceFirstL, if_neg hp, h3]
        have hd : (c :: t).drop (j + 1 + old.length) = t.drop (j + old.length) := by
          rw [Nat.add_right_comm j 1 old.length]
          exact List.drop_succ_cons
        simp [hd]

/-- The characterization holds whenever the needle occurs in the string. -/
theorem replaceFirstHolds_of_contains (old new s : String) (h : containsStr s old = true) :
    replaceFirstHolds old new s = true := by
  unfold containsStr at h
  have hs : (firstMatchIdx old.data s.data).isSome = true := by
    rw [firstMatchIdx_isSome]; exact h
  obtain ⟨i, hi⟩ := Option.isSome_iff_exists.mp hs
  obtain ⟨h1, h2, h3⟩ := replaceFirst_at old.data new.data s.data i hi
  unfold replaceFirstHolds
  rw [hi]
  simp [h1, h2, h3]

/-! ## Supporting lemmas: approval gate and registry -/

/-- Every branch of the edit preview proposes the `edit_file` tool. -/
theorem edit_preview_tool (ctx : Ctx) (p o n : String) (w : World) :
    (_tool_edit_file_preview ctx p o n w).tool = "edit_file" := by
  unfold _tool_edit_file_preview
  split
  · rfl
  · split
    · rfl
    · split
      · rfl
      · split
        · rfl
        · rfl

/-- The run-terminal preview proposes the `run_terminal` tool. -/
theorem run_preview_tool (c : String) (cwd : Option String) :
    (_tool_run_terminal_preview c cwd).tool = "run_terminal" := rfl

/-- `_execute_edit_file` never changes the event log. -/
theorem execute_edit_file_events (ctx : Ctx) (p o n : String) (w : World) :
    ((_execute_edit_file ctx p o n w).1).events = w.events := by
  unfold _execute_edit_file
  split
  · rfl
  · split
    · rfl
    · split
      · rfl
      · rfl

/-- `_execute_edit_file` never changes the oracle. -/
theorem execute_edit_file_oracle (ctx : Ctx) (p o n : String) (w : World) :
    ((_execute_edit_file ctx p o n w).1).oracle = w.oracle := by
  unfold _execute_edit_file
  split
  · rfl
  · split
    · rfl
    · split
      · rfl
      · rfl

/-- `_execute_run_terminal` records exactly one spawn, in the chosen cwd. -/
theorem execute_run_terminal_events (ctx : Ctx) (c : String) (cwd : Option String) (w : World) :
    ((_execute_run_terminal ctx c cwd w).1).events =
      w.events ++ [(c, runTerminalCwd ctx w cwd)] := by
  unfold _execute_run_terminal
  dsimp only
  split <;> rfl

/-- `_execute_run_terminal` never changes the oracle. -/
theorem execute_run_terminal_oracle (ctx : Ctx) (c : String) (cwd : Option String) (w : World) :
    ((_execute_run_terminal ctx c cwd w).1).oracle = w.oracle := by
  unfold _execute_run_terminal
  dsimp only
  split <;> rfl

/-- The inline autonomous execution only appends to the event log. -/
theorem autonomousExec_events (ctx : Ctx) (n : String) (p : Pending) (w : World) :
    ∃ t, ((autonomousExec ctx n p w).1).events = w.events ++ t := by
  unfold autonomousExec
  split
  · exact ⟨[], by rw [execute_edit_file_events]; simp⟩
  · exact ⟨_, execute_run_terminal_events ..⟩

/-- The inline autonomous execution preserves the oracle. -/
theorem autonomousExec_oracle (ctx : Ctx) (n : String) (p : Pending) (w : World) :
    ((autonomousExec ctx n p w).1).oracle = w.oracle := by
  unfold autonomousExec
  split
  · exact execute_edit_file_oracle ..
  · exact execute_run_terminal_oracle ..

/-- `_get_codeiq_tools` is empty or exactly the two CodeIQ specs. -/
theorem codeiq_tools_cases (ctx : Ctx) (w : World) :
    _get_codeiq_tools ctx w = [] ∨ _get_codeiq_tools ctx w = [searchCodeTool, analyzeCodeTool] := by
  unfold _get_codeiq_tools
  split
  · exact Or.inl rfl
  · dsimp only
    split
    · exact Or.inl rfl
    · exact Or.inr rfl

/-- `edit_file` resolves to its registry entry whatever the context. -/
theorem toolFind_default_edit (ctx : Ctx) (w : World) :
    toolFind (get_default_tools ctx w) "edit_file" = some editFileTool := by
  rcases codeiq_tools_cases ctx w with h | h <;> simp only [get_default_tools, h] <;> rfl

/-- `run_terminal` resolves to its registry entry whatever the context. -/
theorem toolFind_default_run (ctx : Ctx) (w : World) :
    toolFind (get_default_tools ctx w) "run_terminal" = some runTerminalTool := by
  rcases codeiq_tools_cases ctx w with h | h <;> simp only [get_default_tools, h] <;> rfl

/-- A registered default tool whose handler returns a pending approval is
the `edit_file` or `run_terminal` entry, and the proposal carries the same
tool name. -/
theorem defaultTools_pending (ctx : Ctx) (w : World) {ts : ToolSpec}
    (hmem : ts ∈ get_default_tools ctx w) {a : Args} {w2 : World} {p : Pending}
    (hfn : ts.fn ctx a w2 = .ok (.pending p)) :
    (ts.name = "edit_file" ∧ p.tool = "edit_file") ∨
    (ts.name = "run_terminal" ∧ p.tool = "run_terminal") := by
  unfold get_default_tools at hmem
  rw [List.mem_append] at hmem
  rcases hmem with hmem | hmem
  · simp only [List.mem_cons, List.not_mem_nil, or_false] at hmem
    rcases hmem with rfl | rfl | rfl | rfl | rfl | rfl | rfl
    · simp [suggestQuestionsTool, suggestFn] at hfn
    · simp [generateAppTool, generateAppFn] at hfn
    · simp only [readFileTool, readFileFn] at hfn
      split at hfn
      · simp at hfn
      · split at hfn <;> simp at hfn
    · simp only [listDirTool, listDirFn] at hfn
      split at hfn <;> simp at hfn
    · simp [searchFilesTool, searchFilesFn] at hfn
    · simp only [editFileTool, editFileFn] at hfn
      split at hfn
      · simp at hfn
      · simp only [Except.ok.injEq, ToolResult.pending.injEq] at hfn
        exact Or.inl ⟨rfl, hfn ▸ edit_preview_tool ..⟩
    · simp only [runTerminalTool, runTerminalFn] at hfn
      split at hfn
      · simp at hfn
      · simp only [Except.ok.injEq, ToolResult.pending.injEq] at hfn
        exact Or.inr ⟨rfl, hfn ▸ run_preview_tool ..⟩
  · rcases codeiq_tools_cases ctx w with h | h <;> rw [h] at hmem
    · simp at hmem
    · simp only [List.mem_cons, List.not_mem_nil, or_false] at hmem
      rcases hmem with rfl | rfl
      · simp only [searchCodeTool, codeiqSearchFn] at hfn
        split at hfn <;> simp at hfn
      · simp [analyzeCodeTool, codeiqAnalyzeFn] at hfn

/-- A successful `toolFind` returns a member with the requested name. -/
theorem toolFind_mem {ts : ToolSpec} {tools : List ToolSpec} {n : String}
    (h : toolFind tools n = some ts) : ts ∈ tools ∧ ts.name = n := by
  unfold toolFind at h
  refine ⟨List.mem_reverse.mp (List.mem_of_find?_eq_some h), ?_⟩
  have := List.find?_some h
  simpa using this

/-! ## Supporting lemmas: the turn loop -/

/-- In a non-autonomous context the loop never changes the world: no file
write, no process spawn, whatever the model does. -/
theorem runLoopAux_w_nonauto (ctx : Ctx) (tools : List ToolSpec) (hna : ctx.autonomous = false) :
    ∀ (fuel : Nat) (cur : List Message) (w : World),
      (runLoopAux ctx tools fuel cur w).w = w := by
  intro fuel
  induction fuel with
  | zero => intro cur w; rfl
  | succ fuel ih =>
    intro cur w
    simp only [runLoopAux]
    split
    · rfl
    · split <;> rfl
    · rfl
    · split
      · rfl
      · split
        · exact ih _ _
        · split
          · exact ih _ _
          · split
            · exact ih _ _
            · split
              · exact ih _ _
              · exact ih _ _
              · split
                · next hcond => rw [hna] at hcond; simp at hcond
                · rfl

/-- The loop only ever appends corrective or tool-result system messages
to the transcript it was given. -/
theorem runLoopAux_messages (ctx : Ctx) (tools : List ToolSpec) :
    ∀ (fuel : Nat) (cur : List Message) (w : World),
      ∃ extra, (runLoopAux ctx tools fuel cur w).messages = cur ++ extra ∧
        extra.all appendedOk = true := by
  intro fuel
  induction fuel with
  | zero => intro cur w; exact ⟨[], by simp [runLoopAux], rfl⟩
  | succ fuel ih =>
    intro cur w
    have step : ∀ (m : Message) (w2 : World), appendedOk m = true →
        ∃ extra, (runLoopAux ctx tools fuel (cur ++ [m]) w2).messages = cur ++ extra ∧
          extra.all appendedOk = true := by
      intro m w2 hm
      obtain ⟨extra, he, ha⟩ := ih (cur ++ [m]) w2
      exact ⟨m :: extra, by simpa using he, by simp [ha, hm]⟩
    simp only [runLoopAux]
    split
    · exact ⟨[], by simp, rfl⟩
    · split <;> exact ⟨[], by simp, rfl⟩
    · exact ⟨[], by simp, rfl⟩
    · split
      · exact ⟨[], by simp, rfl⟩
      · split
        · exact step _ _ (by simp [appendedOk, invalidToolMsg, strData_append,
            List.isPrefixOf_iff_prefix, List.prefix_append])
        · split
          · exact step _ _ (by simp [appendedOk, invalidToolMsg, strData_append,
              List.isPrefixOf_iff_prefix, List.prefix_append])
          · split
            · exact step _ _ (by simp [appendedOk, invalidToolMsg, strData_append,
                List.isPrefixOf_iff_prefix, List.prefix_append])
            · split
              · exact step _ _ (by
                  simp [appendedOk, toolResultMsg, strData_append,
                    List.isPrefixOf_iff_prefix, List.append_assoc])
              · exact step _ _ (by
                  simp [appendedOk, toolResultMsg, strData_append,
                    List.isPrefixOf_iff_prefix, List.append_assoc])
              · split
                · exact step _ _ (by
                    simp [appendedOk, toolResultMsg, strData_append,
                      List.isPrefixOf_iff_prefix, List.append_assoc])
                · exact ⟨[], by simp, rfl⟩

/-- The loop only appends to the event log (spawns are never retracted). -/
theorem runLoopAux_events (ctx : Ctx) (tools : List ToolSpec) :
    ∀ (fuel : Nat) (cur : List Message) (w : World),
      ∃ t, (runLoopAux ctx tools fuel cur w).w.events = w.events ++ t := by
  intro fuel
  induction fuel with
  | zero => intro cur w; exact ⟨[], by simp [runLoopAux]⟩
  | succ fuel ih =>
    intro cur w
    simp only [runLoopAux]
    split
    · exact ⟨[], by simp⟩
    · split <;> exact ⟨[], by simp⟩
    · exact ⟨[], by simp⟩
    · split
      · exact ⟨[], by simp⟩
      · split
        · exact ih _ _
        · split
          · exact ih _ _
          · split
            · exact ih _ _
            · split
              · exact ih _ _
              · exact ih _ _
              · next hfn =>
                rename_i p
                split
                · obtain ⟨t0, h0⟩ := autonomousExec_events ctx _ p w
                  obtain ⟨t1, h1⟩ := ih _ _
                  exact ⟨t0 ++ t1, by rw [h1, h0, List.append_assoc]⟩
                · exact ⟨[], by simp⟩

/-- `x or ""` is the identity on strings. -/
theorem pyOr_some_self (c : String) : pyOr (some c) "" = c := by
  simp only [pyOr]
  split
  · next h => exact h.symm
  · rfl

/-- Messages the loop appends never look like the system prompt
(they start with `[`, the sentinel starts with `Y`). -/
theorem appendedOk_not_sys {m : Message} (h : appendedOk m = true) :
    isSysPromptMsg m = false := by
  unfold appendedOk at h
  rw [Bool.and_eq_true, Bool.or_eq_true] at h
  unfold isSysPromptMsg
  by_contra hc
  rw [Bool.not_eq_false, List.isPrefixOf_iff_prefix] at hc
  obtain ⟨t2, e2⟩ := hc
  have hS : SENTINEL.data = 'Y' :: "ou are a helpful coding".data := rfl
  rcases h.2 with h | h <;> rw [List.isPrefixOf_iff_prefix] at h <;> obtain ⟨t1, e1⟩ := h
  · have e := e1.trans e2.symm
    have hA : "[Invalid tool: ".data = '[' :: "Invalid tool: ".data := rfl
    rw [hA, hS] at e
    simp only [List.cons_append, List.cons.injEq] at e
    exact absurd e.1 (by decide)
  · have e := e1.trans e2.symm
    have hB : "[Tool ".data = '[' :: "Tool ".data := rfl
    rw [hB, hS] at e
    simp only [List.cons_append, List.cons.injEq] at e
    exact absurd e.1 (by decide)

/-- A model that only ever requests the unregistered name `bad` makes the
loop append one corrective message per turn, for exactly `fuel` turns, and
finish with the turn-limit reply. -/
theorem runLoopAux_invalid (ctx : Ctx) (tools : List ToolSpec) (bad : String) (a : Args)
    (w : World)
    (hO : ∀ p, w.oracle p = .obj none (some bad) a)
    (hbad : bad ≠ "")
    (hfind : toolFind tools bad = none) :
    ∀ (fuel : Nat) (cur : List Message),
      runLoopAux ctx tools fuel cur w =
        ⟨w, cur ++ List.replicate fuel ⟨"system", invalidToolMsg (some bad) tools⟩,
         some MSG_TURN_LIMIT, none⟩ := by
  intro fuel
  induction fuel with
  | zero => intro cur; simp [runLoopAux]
  | succ fuel ih =>
    intro cur
    simp only [runLoopAux, hO]
    rw [if_neg (by simp [truthyS]), if_neg hbad, hfind, ih]
    simp [List.replicate_succ]

/-- With autonomous mode on and a registry whose pending proposals only come
from the `edit_file`/`run_terminal` entries, the loop never suspends. -/
theorem runLoopAux_auto_pending (ctx : Ctx) (tools : List ToolSpec)
    (hauto : ctx.autonomous = true)
    (hpend : ∀ ts ∈ tools, ∀ (a : Args) (w2 : World) (p : Pending),
      ts.fn ctx a w2 = .ok (.pending p) → ts.name = "edit_file" ∨ ts.name = "run_terminal") :
    ∀ (fuel : Nat) (cur : List Message) (w : World),
      (runLoopAux ctx tools fuel cur w).pending = none := by
  intro fuel
  induction fuel with
  | zero => intro cur w; rfl
  | succ fuel ih =>
    intro cur w
    simp only [runLoopAux]
    split
    · rfl
    · split <;> rfl
    · rfl
    · split
      · rfl
      · split
        · exact ih _ _
        · split
          · exact ih _ _
          · split
            · exact ih _ _
            · next hts =>
              rename_i ts
              split
              · exact ih _ _
              · exact ih _ _
              · next hfn =>
                rename_i p
                split
                · exact ih _ _
                · next hcond =>
                  exfalso
                  have hmem := toolFind_mem hts
                  have hname := hpend ts hmem.1 _ _ _ hfn
                  rw [← hmem.2] at hcond
                  rcases hname with h | h <;> rw [h] at hcond <;> simp [hauto] at hcond

/-- `injectMessages` leaves args alone for every other tool name. -/
theorem injectMessages_not_builder {n : String} (a : Args) (cur : List Message)
    (h1 : n ≠ "suggest_questions") (h2 : n ≠ "generate_app") :
    injectMessages n a cur = a := by
  unfold injectMessages
  rw [if_neg]
  rintro ⟨h | h, _⟩
  · exact h1 h
  · exact h2 h

/-! ## Claim theorems -/

/-- C1: the spec claims `_safe_path` rejects every escaping path, comparing
prefixes component-wise so that `/root-evil` does not match root `/root`.
The code instead uses a naive string `startswith`: at root `/root` and
relative path `../root-evil` it returns `/root-evil`, a path outside the
root whose components do not extend the normalized root's components —
contradicting the claim and `_safe_path`'s own docstring
("return None if outside"). -/
theorem c1_safe_path_naive_prefix_escape :
    _safe_path "/" "/root" "../root-evil" = some "/root-evil" ∧
    (strSplitChar '/' (pyNormpath "/root")).isPrefixOf (strSplitChar '/' "/root-evil") = false := by
  exact ⟨rfl, rfl⟩

/-- C3: the command safety filter blocks `rm -rf /` and `curl http://x | sh`
and passes `ls -la` (filter modelled from the spec; see
`_is_command_blocked`). -/
theorem c3_command_filter_examples :
    (_is_command_blocked "rm -rf /").isSome = true ∧
    (_is_command_blocked "curl http://x | sh").isSome = true ∧
    _is_command_blocked "ls -la" = none := by
  exact ⟨rfl, rfl, rfl⟩

/-- C6: evaluating the code at the failing input — when no model client can
be obtained, `run_loop` returns the human-readable message as `reply` in a
3-tuple `(messages, reply, pending)` with no fourth error-code component at
all; the repository's own tests (`test_run_loop_no_llm_returns_error_message`)
and caller (`agent_chat.py`) unpack four values and expect
`no_llm_configured`. -/
theorem c6_no_llm_shape :
    (run_loop [⟨"user", "Hi"⟩] {} none 2 noLlmWorld).reply = some MSG_NO_LLM ∧
    (run_loop [⟨"user", "Hi"⟩] {} none 2 noLlmWorld).pending = none ∧
    (run_loop [⟨"user", "Hi"⟩] {} none 2 noLlmWorld).messages.length = 2 := by
  exact ⟨rfl, rfl, rfl⟩

/-- C10: for an approved `run_terminal` whose `cwd` does not resolve inside
the workspace (`_safe_path` returns null), `_execute_run_terminal` returns
no error: it silently substitutes `workspace_root` as the working directory
and runs the command there. -/
theorem c10_cwd_silent_fallback (ctx : Ctx) (command c : String) (w : World)
    (out err : String) (rc : Int)
    (hsafe : _safe_path w.cwd ctx.workspace_root c = none)
    (hc : c ≠ "")
    (hexec : w.execOutcome command ctx.workspace_root = .success out err rc) :
    _execute_run_terminal ctx command (some c) w =
      ({w with events := w.events ++ [(command, ctx.workspace_root)]},
       dumps (.obj [("stdout", .s (strTake out 8000)), ("stderr", .s (strTake err 2000)),
         ("returncode", .n rc)])) := by
  have hcwd : runTerminalCwd ctx w (some c) = ctx.workspace_root := by
    unfold runTerminalCwd
    dsimp only
    rw [if_pos hc, hsafe]
    rfl
  unfold _execute_run_terminal
  dsimp only
  rw [hcwd, hexec]

/-- Witness for C10 at root `/ws` and escaping cwd `../evil`. -/
theorem c10_cwd_silent_fallback_witness :
    _safe_path (({} : World)).cwd wsCtx.workspace_root "../evil" = none ∧
    ("../evil" : String) ≠ "" ∧
    ({} : World).execOutcome "ls" wsCtx.workspace_root = .success "" "" 0 ∧
    _execute_run_terminal wsCtx "ls" (some "../evil") {} =
      ({({} : World) with events := ({} : World).events ++ [("ls", wsCtx.workspace_root)]},
       dumps (.obj [("stdout", .s (strTake "" 8000)),
         ("stderr", .s (strTake "" 2000)), ("returncode", .n 0)])) :=
  ⟨rfl, by decide, rfl,
   c10_cwd_silent_fallback wsCtx "ls" "../evil" {} "" "" 0 rfl (by decide) rfl⟩

/-- C9 counterexample: the claim says an I/O error while listing the
workspace yields an empty block; with root `/ws` a directory whose listing
raises `OSError`, `_get_workspace_context_block` returns a non-empty block
noting the failure instead. -/
theorem c9_counterexample_listdir_error :
    _get_workspace_context_block wsCtx [] listErrWorld =
      "\nWorkspace context (workspace_root is set):\n(could not list workspace)" ∧
    _get_workspace_context_block wsCtx [] listErrWorld ≠ "" := by
  exact ⟨rfl, by decide⟩

/-- C9 (amended): `_get_workspace_context_block` never surfaces an error to
the caller (it is a total function of the modelled world); with no
workspace configured (blank root or not a directory) it yields the empty
block; an I/O error while listing the workspace yields a non-empty block
containing the `(could not list workspace)` note instead of an empty one. -/
theorem c9_context_block_best_effort :
    (∀ (ctx : Ctx) (messages : List Message) (w : World),
      (pyStrip ctx.workspace_root = "" ∨ w.isdir (pyStrip ctx.workspace_root) = false) →
      _get_workspace_context_block ctx messages w = "") ∧
    (∀ (ctx : Ctx) (messages : List Message) (w : World) (e : String),
      pyStrip ctx.workspace_root ≠ "" →
      w.isdir (pyStrip ctx.workspace_root) = true →
      w.listdir (pyStrip ctx.workspace_root) = .error e →
      containsStr (_get_workspace_context_block ctx messages w) "(could not list workspace)" = true ∧
      _get_workspace_context_block ctx messages w ≠ "") := by
  constructor
  · intro ctx messages w h
    unfold _get_workspace_context_block
    dsimp only
    rw [if_pos h]
  · intro ctx messages w e hroot hdir hlist
    unfold _get_workspace_context_block
    dsimp only
    rw [if_neg (by simp [hroot, hdir]), hlist]
    dsimp only
    rw [if_pos (by simp)]
    constructor
    · show containsStr
        (pyJoinStr "\n" ((["\nWorkspace context (workspace_root is set):"] ++
          ["(could not list workspace)"]) ++ _)) _ = true
      rw [List.append_assoc, List.singleton_append, List.singleton_append]
      show containsStr ("\nWorkspace context (workspace_root is set):" ++ "\n" ++
        pyJoinStr "\n" ("(could not list workspace)" :: _)) _ = true
      unfold containsStr
      rw [strData_append]
      apply containsL_append
      apply containsL_of_isPrefixOf
      rw [List.isPrefixOf_iff_prefix]
      cases h : (match lastUserContent messages with
        | none => ([] : List String)
        | some lastUser =>
          if ctx.inject_search_context = some false then []
          else
            if (searchWords lastUser).isEmpty then []
            else quickSearchLines ctx w ((searchWords lastUser).take 2)) with
      | nil => exact List.prefix_refl _
      | cons y ys =>
        show ("(could not list workspace)" : String).data <+:
          ("(could not list workspace)" ++ "\n" ++ _ : String).data
        rw [strData_append, strData_append, List.append_assoc]
        exact List.prefix_append _ _
    · intro hemp
      have := congrArg String.data hemp
      rw [List.append_assoc, List.singleton_append, List.singleton_append] at this
      simp [pyJoinStr, strData_append] at this

/-- Witness for the amended C9: a blank root yields the empty block; a
listing error at root `/ws` yields the non-empty noted block. -/
theorem c9_context_block_best_effort_witness :
    _get_workspace_context_block {} [] {} = "" ∧
    (containsStr (_get_workspace_context_block wsCtx [] listErrWorld)
        "(could not list workspace)" = true ∧
     _get_workspace_context_block wsCtx [] listErrWorld ≠ "") :=
  ⟨c9_context_block_best_effort.1 {} [] {} (Or.inl rfl),
   c9_context_block_best_effort.2 wsCtx [] listErrWorld "boom" (by decide) rfl rfl⟩

/-- C7: with `maxTurns ≥ 1`, a model that only ever requests an unregistered
tool name makes `run_loop` append one corrective system message per turn,
perform exactly `maxTurns` turns, and finish with the turn-limit reply and
no pending approval — never looping forever and never aborting early. -/
theorem c7_turn_budget (messages : List Message) (ctx : Ctx) (w : World) (bad : String)
    (a : Args) (n : Nat)
    (hllm : w.llmAvailable = true)
    (hn : 1 ≤ n)
    (hO : ∀ p, w.oracle p = .obj none (some bad) a)
    (hbad : bad ≠ "")
    (hfind : toolFind (get_default_tools ctx w) bad = none) :
    run_loop messages ctx none n w =
      ⟨w,
       insertSystem messages (runLoopSystem (get_default_tools ctx w) ctx w messages) ++
         List.replicate n ⟨"system", invalidToolMsg (some bad) (get_default_tools ctx w)⟩,
       some MSG_TURN_LIMIT, none⟩ := by
  unfold run_loop
  rw [if_neg (by simp [hllm])]
  exact runLoopAux_invalid ctx (resolvedTools none ctx w) bad a w hO hbad hfind n _

/-- Witness for C7: three turns of requesting the unregistered `bogus`. -/
theorem c7_turn_budget_witness :
    bogusWorld.llmAvailable = true ∧ 1 ≤ 3 ∧ ("bogus" : String) ≠ "" ∧
    toolFind (get_default_tools {} bogusWorld) "bogus" = none ∧
    run_loop [⟨"user", "Hi"⟩] {} none 3 bogusWorld =
      ⟨bogusWorld,
       insertSystem [⟨"user", "Hi"⟩]
         (runLoopSystem (get_default_tools {} bogusWorld) {} bogusWorld [⟨"user", "Hi"⟩]) ++
         List.replicate 3 ⟨"system", invalidToolMsg (some "bogus") (get_default_tools {} bogusWorld)⟩,
       some MSG_TURN_LIMIT, none⟩ :=
  ⟨rfl, by decide, by decide, rfl,
   c7_turn_budget [⟨"user", "Hi"⟩] {} bogusWorld "bogus" {} 3 rfl (by decide)
     (fun _ => rfl) (by decide) rfl⟩

/-- C8: on a transcript whose head already carries the system prompt
(detected by the sentinel substring), `run_loop` inserts no second system
prompt: the input transcript is preserved as a prefix, everything appended
is a corrective or tool-result system message, and the number of
system-prompt entries (messages starting with the sentinel) is unchanged. -/
theorem c8_system_prompt_idempotent (messages : List Message) (ctx : Ctx)
    (toolsOpt : Option (List ToolSpec)) (n : Nat) (w : World) (m0 : Message)
    (rest : List Message)
    (hm : messages = m0 :: rest)
    (hrole : m0.role = "system")
    (hsent : containsStr m0.content SENTINEL = true) :
    ((run_loop messages ctx toolsOpt n w).messages).take messages.length = messages ∧
    (((run_loop messages ctx toolsOpt n w).messages).drop messages.length).all appendedOk = true ∧
    ((run_loop messages ctx toolsOpt n w).messages).countP (fun m => isSysPromptMsg m) =
      messages.countP (fun m => isSysPromptMsg m) := by
  subst hm
  have hins : insertSystem (m0 :: rest)
      (runLoopSystem (resolvedTools toolsOpt ctx w) ctx w (m0 :: rest)) = m0 :: rest := by
    unfold insertSystem
    dsimp only
    rw [if_pos (by simp [hrole, hsent])]
  unfold run_loop
  split
  · refine ⟨by simp [hins], by simp [hins], by simp [hins]⟩
  · obtain ⟨extra, he, ha⟩ := runLoopAux_messages ctx (resolvedTools toolsOpt ctx w) n
      (insertSystem (m0 :: rest) (runLoopSystem (resolvedTools toolsOpt ctx w) ctx w (m0 :: rest))) w
    rw [hins] at he
    refine ⟨?_, ?_, ?_⟩
    · rw [hins, he, List.take_left]
    · rw [hins, he, List.drop_left]
      exact ha
    · rw [hins, he, List.countP_append]
      have hz : extra.countP (fun m => isSysPromptMsg m) = 0 := by
        rw [List.countP_eq_zero]
        intro m hmem
        have := appendedOk_not_sys (List.all_eq_true.mp ha m hmem)
        simp [this]
      rw [hz, Nat.add_zero]

/-- Witness for C8: a transcript already headed by a sentinel-bearing system
message is preserved verbatim up to appended tool traffic. -/
theorem c8_system_prompt_idempotent_witness :
    (⟨"system", "You are a helpful coding assistant."⟩ : Message).role = "system" ∧
    containsStr "You are a helpful coding assistant." SENTINEL = true ∧
    (((run_loop [⟨"system", "You are a helpful coding assistant."⟩] {} none 2 bogusWorld).messages).take
        ([⟨"system", "You are a helpful coding assistant."⟩] : List Message).length =
      [⟨"system", "You are a helpful coding assistant."⟩] ∧
     (((run_loop [⟨"system", "You are a helpful coding assistant."⟩] {} none 2 bogusWorld).messages).drop
        ([⟨"system", "You are a helpful coding assistant."⟩] : List Message).length).all appendedOk = true ∧
     ((run_loop [⟨"system", "You are a helpful coding assistant."⟩] {} none 2 bogusWorld).messages).countP
        (fun m => isSysPromptMsg m) =
      ([⟨"system", "You are a helpful coding assistant."⟩] : List Message).countP
        (fun m => isSysPromptMsg m)) :=
  ⟨rfl, by decide,
   c8_system_prompt_idempotent [⟨"system", "You are a helpful coding assistant."⟩] {} none 2
     bogusWorld ⟨"system", "You are a helpful coding assistant."⟩ [] rfl rfl (by decide)⟩

/-- C4: in a non-autonomous context, a model turn requesting `edit_file` or
`run_terminal` makes `run_loop` return immediately: the reply is null, the
pending value is populated with that tool, the transcript gains nothing
(in particular no tool result), and the world is unchanged — no file write
and no process spawn happens before `execute_pending_and_continue`. -/
theorem c4_approval_suspension (messages : List Message) (ctx : Ctx) (n : Nat) (w : World)
    (tname : String)
    (hna : ctx.autonomous = false)
    (hllm : w.llmAvailable = true)
    (ht : tname = "edit_file" ∨ tname = "run_terminal")
    (hO : ∀ p, w.oracle p = .obj none (some tname) ({} : Args))
    (hn : 1 ≤ n) :
    (run_loop messages ctx none n w).w = w ∧
    (run_loop messages ctx none n w).reply = none ∧
    Option.map Pending.tool (run_loop messages ctx none n w).pending = some tname ∧
    (run_loop messages ctx none n w).messages =
      insertSystem messages (runLoopSystem (get_default_tools ctx w) ctx w messages) := by
  obtain ⟨m, rfl⟩ : ∃ m, n = m + 1 := ⟨n - 1, by omega⟩
  unfold run_loop
  rw [if_neg (by simp [hllm])]
  rcases ht with rfl | rfl
  · simp only [runLoopAux, hO]
    rw [if_neg (by simp [truthyS]), if_neg (by decide)]
    simp only [resolvedTools]
    rw [toolFind_default_edit]
    dsimp only
    rw [injectMessages_not_builder _ _ (by decide) (by decide)]
    simp only [editFileTool, editFileFn]
    rw [if_neg (by decide)]
    dsimp only
    rw [hna, if_neg (by simp)]
    exact ⟨rfl, rfl, by simp [edit_preview_tool], rfl⟩
  · simp only [runLoopAux, hO]
    rw [if_neg (by simp [truthyS]), if_neg (by decide)]
    simp only [resolvedTools]
    rw [toolFind_default_run]
    dsimp only
    rw [injectMessages_not_builder _ _ (by decide) (by decide)]
    simp only [runTerminalTool, runTerminalFn]
    rw [if_neg (by decide)]
    dsimp only
    rw [hna, if_neg (by simp)]
    exact ⟨rfl, rfl, by simp [run_preview_tool], rfl⟩

/-- Witness for C4: an `edit_file` request in a non-autonomous context at
root `/ws` suspends with a populated pending and an unchanged world. -/
theorem c4_approval_suspension_witness :
    wsCtx.autonomous = false ∧ editReqWorld.llmAvailable = true ∧ (1 : Nat) ≤ 3 ∧
    ((run_loop [⟨"user", "fix it"⟩] wsCtx none 3 editReqWorld).w = editReqWorld ∧
     (run_loop [⟨"user", "fix it"⟩] wsCtx none 3 editReqWorld).reply = none ∧
     Option.map Pending.tool (run_loop [⟨"user", "fix it"⟩] wsCtx none 3 editReqWorld).pending =
       some "edit_file" ∧
     (run_loop [⟨"user", "fix it"⟩] wsCtx none 3 editReqWorld).messages =
       insertSystem [⟨"user", "fix it"⟩]
         (runLoopSystem (get_default_tools wsCtx editReqWorld) wsCtx editReqWorld
           [⟨"user", "fix it"⟩])) := by
  refine ⟨rfl, rfl, by decide, ?_⟩
  have h := c4_approval_suspension [⟨"user", "fix it"⟩] wsCtx 3 editReqWorld "edit_file"
    rfl rfl (Or.inl rfl) (fun _ => rfl) (by decide)
  exact ⟨h.1, h.2.1, h.2.2.1, h.2.2.2⟩

/-- C2 counterexample: in autonomous context the model requests
`run_terminal` with `rm -rf /`; the Command Safety Filter blocks that
command, yet the loop spawns it immediately (the event log records the
execution) and returns no Proposed value for review — refuting the claim
that a filter-blocked command is never executed. -/
theorem c2_counterexample_blocked_command_runs :
    _is_command_blocked "rm -rf /" ≠ none ∧
    (run_loop [⟨"user", "clean up"⟩] autoCtx none 1 rmWorld).w.events =
      [("rm -rf /", "/ws")] ∧
    (run_loop [⟨"user", "clean up"⟩] autoCtx none 1 rmWorld).pending = none := by
  exact ⟨by decide, rfl, rfl⟩

/-- C2 (amended): in autonomous context, when the model requests
`run_terminal`, the loop executes the command immediately and
unconditionally — no command-safety filter is consulted before spawning,
whatever the command text — and never returns a Proposed value. -/
theorem c2_autonomous_run_unconditional (messages : List Message) (ctx : Ctx) (n : Nat)
    (w : World) (cmd : String) (cwdA : Option String)
    (hauto : ctx.autonomous = true)
    (hllm : w.llmAvailable = true)
    (hn : 1 ≤ n)
    (hO : ∀ p, w.oracle p = .obj none (some "run_terminal")
      {command := some cmd, cwd := cwdA}) :
    ((run_loop messages ctx none n w).w.events).take (w.events.length + 1) =
      w.events ++ [(cmd, runTerminalCwd ctx w cwdA)] ∧
    (run_loop messages ctx none n w).pending = none := by
  obtain ⟨m, rfl⟩ : ∃ m, n = m + 1 := ⟨n - 1, by omega⟩
  unfold run_loop
  rw [if_neg (by simp [hllm])]
  constructor
  · simp only [runLoopAux, hO]
    rw [if_neg (by simp [truthyS]), if_neg (by decide)]
    simp only [resolvedTools]
    rw [toolFind_default_run]
    dsimp only
    rw [injectMessages_not_builder _ _ (by decide) (by decide)]
    simp only [runTerminalTool, runTerminalFn]
    rw [if_neg (by decide)]
    dsimp only
    rw [hauto, if_pos (by simp)]
    unfold autonomousExec
    rw [if_neg (by decide)]
    dsimp only [_tool_run_terminal_preview]
    rw [show (some (pyOr (some cmd) "")).getD "" = cmd from by rw [Option.getD_some, pyOr_some_self]]
    obtain ⟨t, hte⟩ := runLoopAux_events ctx (get_default_tools ctx w) m
      (insertSystem messages (runLoopSystem (get_default_tools ctx w) ctx w messages) ++
        [toolResultMsg "run_terminal" (_execute_run_terminal ctx cmd cwdA w).2])
      (_execute_run_terminal ctx cmd cwdA w).1
    rw [hte, execute_run_terminal_events]
    rw [show w.events.length + 1 = (w.events ++ [(cmd, runTerminalCwd ctx w cwdA)]).length from by simp]
    rw [List.take_left]
  · exact runLoopAux_auto_pending ctx (resolvedTools none ctx w) hauto
      (fun ts hmem a w2 p hfn => (defaultTools_pending ctx w hmem hfn).imp And.left And.left)
      (m + 1) _ w

/-- Witness for the amended C2: the blocked command `rm -rf /` is spawned
on the first autonomous turn and no Proposed value is returned. -/
theorem c2_autonomous_run_unconditional_witness :
    autoCtx.autonomous = true ∧ rmWorld.llmAvailable = true ∧ (1 : Nat) ≤ 1 ∧
    (((run_loop [⟨"user", "clean up"⟩] autoCtx none 1 rmWorld).w.events).take
        (rmWorld.events.length + 1) =
      rmWorld.events ++ [("rm -rf /", runTerminalCwd autoCtx rmWorld none)] ∧
     (run_loop [⟨"user", "clean up"⟩] autoCtx none 1 rmWorld).pending = none) :=
  ⟨rfl, rfl, by decide,
   c2_autonomous_run_unconditional [⟨"user", "clean up"⟩] autoCtx 1 rmWorld "rm -rf /" none
     rfl rfl (by decide) (fun _ => rfl)⟩

/-- C5: edit atomicity and first-occurrence semantics of
`_execute_edit_file`.  With the target resolved and readable: if
`old_string` is absent from the content, no write occurs and the result is
error-flagged; if present, the whole file is rewritten as the original
content with exactly its first occurrence of `old_string` replaced by
`new_string` (`replaceFirstHolds` pins the splice at the first match index
and the absence of any earlier match), every other path untouched. -/
theorem c5_edit_atomicity (ctx : Ctx) (path old_string new_string : String) (w : World)
    (full content : String)
    (hsafe : _safe_path w.cwd ctx.workspace_root path = some full)
    (hread : w.readFile full = .ok content) :
    (containsStr content old_string = false →
      _execute_edit_file ctx path old_string new_string w =
        (w, jerr "old_string not found in file.")) ∧
    (containsStr content old_string = true →
      _execute_edit_file ctx path old_string new_string w =
        ({w with readFile :=
            fsUpdate w.readFile full (strReplaceFirst content old_string new_string)},
         dumps (.obj [("path", .s path), ("status", .s "updated")])) ∧
      replaceFirstHolds old_string new_string content = true) := by
  constructor
  · intro habs
    unfold _execute_edit_file
    rw [hsafe]
    dsimp only
    rw [hread]
    dsimp only
    rw [if_pos (by simp [habs])]
  · intro hpres
    refine ⟨?_, replaceFirstHolds_of_contains _ _ _ hpres⟩
    unfold _execute_edit_file
    rw [hsafe]
    dsimp only
    rw [hread]
    dsimp only
    rw [if_neg (by simp [hpres])]

/-- Witness for C5: replacing the first `bc` of `abcabcd` by `XY` in
`/ws/a.txt`. -/
theorem c5_edit_atomicity_witness :
    _safe_path editFileWorld.cwd wsCtx.workspace_root "a.txt" = some "/ws/a.txt" ∧
    editFileWorld.readFile "/ws/a.txt" = .ok "abcabcd" ∧
    containsStr "abcabcd" "bc" = true ∧
    (_execute_edit_file wsCtx "a.txt" "bc" "XY" editFileWorld =
       ({editFileWorld with readFile := fsUpdate editFileWorld.readFile "/ws/a.txt" (strReplaceFirst "abcabcd" "bc" "XY")},
        dumps (.obj [("path", .s "a.txt"), ("status", .s "updated")])) ∧
     replaceFirstHolds "bc" "XY" "abcabcd" = true) :=
  ⟨rfl, rfl, by decide,
   (c5_edit_atomicity wsCtx "a.txt" "bc" "XY" editFileWorld "/ws/a.txt" "abcabcd" rfl rfl).2
     (by decide)⟩

end AgentKernel
